import Mathlib

/-!
Shallow embedding of `src/hello.go` (mingder78/go-hello): a two-node libp2p
Kademlia DHT demo.  The program creates two hosts, initializes a DHT on each,
bootstraps them, connects host 2 to host 1's first advertised address,
verifies connectedness, polls both routing tables until non-empty (joined by
a WaitGroup), then stores a key/value pair from host 2 with a bounded retry
loop and retrieves it from host 1 with a second bounded retry loop under a
single 10-second timeout context.

The substrate (libp2p / go-libp2p-kad-dht) is external to the repository; it
enters the embedding only as function parameters, except where a claim is
about substrate behaviour itself, in which case the definition is modelled
from the spec and says so in its doc comment.
-/

namespace HelloDHT

/-- Error taxonomy of the program's observable failures (spec section 7).
`transient` covers substrate put/get failures local to one attempt;
`notFound` is definitive absence; `deadlineExceeded` is the Go context
deadline error; `verificationFailed` is the fatal connectivity assertion of
hello.go:82-84; `closed` is an operation on a released node. -/
inductive Err where
  | transient (msg : String)
  | notFound
  | deadlineExceeded
  | verificationFailed
  | closed
deriving DecidableEq, Repr

/-- Observable outcome of one retry loop: the final result (a terminal error
carries the attempt count reported by the Fatalf and the last underlying
error), the number of operation attempts made, and the number of
inter-attempt sleeps taken (hello.go:125 / 144). -/
structure RetryResult (α : Type) where
  result : Except (Nat × Err) α
  attempts : Nat
  sleeps : Nat
deriving Repr

/-- Retry loop body of hello.go:114-126 and hello.go:133-145, running from
attempt number `attempt` with `remaining` attempts left (the last attempt is
the one with `remaining = 1`, where the Go code hits `attempt == maxRetries`
and exits via Fatalf carrying the attempt count and the last error).  On any
earlier failure the loop sleeps 500 ms and tries again; a success stops the
loop at once, with no further attempt or sleep. -/
def retryFrom (op : Nat → Except Err α) : Nat → Nat → RetryResult α
  | _, 0 => { result := Except.error (0, Err.transient "loop not entered"), attempts := 0, sleeps := 0 }
  | attempt, remaining + 1 =>
      match op attempt with
      | Except.ok a => { result := Except.ok a, attempts := 1, sleeps := 0 }
      | Except.error e =>
          if remaining = 0 then
            { result := Except.error (attempt, e), attempts := 1, sleeps := 0 }
          else
            let rest := retryFrom op (attempt + 1) remaining
            { result := rest.result, attempts := rest.attempts + 1, sleeps := rest.sleeps + 1 }

/-- RetryRunner.run (spec section 4.2), exactly as the source loops implement
it: attempts are numbered 1 up to `maxAttempts`. -/
def retryRun (op : Nat → Except Err α) (maxAttempts : Nat) : RetryResult α :=
  retryFrom op 1 maxAttempts

/-- Constant of hello.go:113: `const maxRetries = 3`. -/
def maxRetries : Nat := 3

/-- Key stored by the demo (hello.go:110). -/
def testKey : String := "/myapp/testkey"

/-- Value stored by the demo (hello.go:111). -/
def testValue : String := "Hello, libp2p DHT!"

/-- Put path of main (hello.go:110-126): every attempt passes the key and
value unchanged to the substrate `PutValue`; the source contains no key
validation of its own and no deadline (the loop runs under the background
context of hello.go:27). -/
def putPath (putValueSub : Nat → String → String → Except Err Unit)
    (key value : String) (maxAttempts : Nat) : RetryResult Unit :=
  retryRun (fun attempt => putValueSub attempt key value) maxAttempts

/-- Timeout of hello.go:130 in milliseconds: `context.WithTimeout(ctx,
10*time.Second)`, computed once, before the retrieve loop. -/
def getTimeoutMs : Nat := 10000

/-- One `GetValue` call under the shared timeout context (hello.go:135):
`elapsed attempt` is the time in milliseconds since the context was created
at which the attempt starts; when the deadline has already expired the
context dooms the call to a deadline-exceeded error (Go context semantics),
otherwise the substrate answers. -/
def getAttempt (getValueSub : Nat → Except Err String) (elapsed : Nat → Nat)
    (deadline attempt : Nat) : Except Err String :=
  if deadline ≤ elapsed attempt then Except.error Err.deadlineExceeded
  else getValueSub attempt

/-- Get path of main (hello.go:129-145): one timeout context, created before
the loop, shared by all attempts; the key is passed to the substrate
`GetValue` unchanged on every attempt, with no validation in the source. -/
def getPath (getValueSub : Nat → String → Except Err String) (elapsed : Nat → Nat)
    (key : String) (maxAttempts : Nat) : RetryResult String :=
  retryRun (fun attempt =>
    getAttempt (fun i => getValueSub i key) elapsed getTimeoutMs attempt) maxAttempts

/-- Modelled from the spec: the substrate's replicated key-value store on a
connected, ready overlay (spec sections 1 and 6); `DHTHandle.putValue` and
`DHTHandle.getValue` are external library calls, not code under src, so the
store they maintain is modelled here as an association list shared by all
participants of the overlay. -/
def Store : Type := List (String × String)

/-- Modelled from the spec: `DHTHandle.putValue` records the key/value pair
in the replicated store. -/
def storePut (s : Store) (k v : String) : Store := (k, v) :: s

/-- Modelled from the spec: `DHTHandle.getValue` returns the bytes stored
under the key, or reports definitive absence. -/
def storeGet (s : Store) (k : String) : Except Err String :=
  match s.find? (fun p => p.1 == k) with
  | some p => Except.ok p.2
  | none => Except.error Err.notFound

/-- Readiness poll of hello.go:93-96 (host 1) and hello.go:101-104 (host 2):
while the routing-table size reads 0, sleep and poll again.  `size t` is the
size observed at the t-th poll; `fuel` bounds the modelled observation
window.  Returns the number of sleeps taken before readiness was observed,
or `none` when the table stayed empty for the whole window (the real loop
would still be running). -/
def pollReady (size : Nat → Nat) : Nat → Nat → Option Nat
  | _, 0 => none
  | t, fuel + 1 =>
      if size t = 0 then (pollReady size (t + 1) fuel).map (· + 1) else some 0

/-- awaitRoutingReady (spec section 4.1), the per-node goroutine body of
hello.go:91-106: poll from the first observation. -/
def awaitRoutingReady (size : Nat → Nat) (fuel : Nat) : Option Nat :=
  pollReady size 0 fuel

/-- waitAllReady (spec section 4.3), the WaitGroup join of hello.go:89-107:
one readiness poll per node; the join returns exactly when every poll has
returned, and returns the per-node sleep counts. -/
def waitAllReady : List (Nat → Nat) → Nat → Option (List Nat)
  | [], _ => some []
  | size :: rest, fuel =>
      match awaitRoutingReady size fuel, waitAllReady rest fuel with
      | some n, some ns => some (n :: ns)
      | _, _ => none

/-- Connectivity states reported by `host.Network().Connectedness`
(hello.go:82); the source only distinguishes `network.Connected` from
everything else. -/
inductive Connectedness where
  | connected
  | notConnected
deriving DecidableEq, Repr

/-- Dial address construction of hello.go:69: the first advertised address
of host 1 suffixed with "/p2p/" and host 1's peer ID; `none` when host 1
advertises no address. -/
def dialAddr (addrs : List String) (id : String) : Option String :=
  addrs.head?.map (fun a => a ++ "/p2p/" ++ id)

/-- Connectivity assertion of hello.go:82-84: after connect, read the
connectedness state once; Fatalf (fail fast, no retry) when it is not
connected.  The second component counts connectedness queries made, which
the source performs exactly once whatever the outcome. -/
def verifyConnection (state : Nat → Connectedness) : Except Err Unit × Nat :=
  if state 0 = Connectedness.connected then (Except.ok (), 1)
  else (Except.error Err.verificationFailed, 1)

/-- Modelled from the spec: the DHTNode lifecycle record of spec sections 3
and 4.1.  The close operation itself is not code under src — main merely
defers the substrate `host.Close()` once per host (hello.go:43-44) — so the
specified close semantics (idempotent, never errors, releases resources) are
modelled here. -/
structure DHTNode where
  closed : Bool
deriving DecidableEq, Repr

/-- Modelled from the spec: close releases the node's transport resources;
it is total (closing never errors, also on an already closed node). -/
def closeNode (n : DHTNode) : DHTNode := { n with closed := true }

/-- Modelled from the spec (section 4.1 state machine): any operation
attempted on a closed node fails with ClosedError; on a live node the
operation itself answers. -/
def runOnNode (n : DHTNode) (op : Except Err α) : Except Err α :=
  if n.closed then Except.error Err.closed else op

/-- End-to-end scenario of main (hello.go:109-146) over the spec-modelled
overlay: node 2 stores the demo pair through the put retry loop (the
substrate accepts the record, so the shared store grows by it), then node 1
retrieves it through the get loop under the 10-second context. -/
def scenario (s : Store) (elapsed : Nat → Nat) :
    RetryResult Unit × Store × RetryResult String :=
  let putRes := putPath (fun _ _ _ => Except.ok ()) testKey testValue maxRetries
  let s2 := storePut s testKey testValue
  let getRes := getPath (fun _ key => storeGet s2 key) elapsed testKey maxRetries
  (putRes, s2, getRes)

/-! Helper lemmas about the retry loop. -/

/-- A successful attempt stops the loop at once: one attempt, no sleep. -/
theorem retryFrom_ok {op : Nat → Except Err α} {a : α} (attempt r : Nat)
    (h : op attempt = Except.ok a) :
    retryFrom op attempt (r + 1) = { result := Except.ok a, attempts := 1, sleeps := 0 } := by
  simp [retryFrom, h]

/-- One failed attempt with budget left: the loop sleeps once and continues,
accumulating the attempt and the sleep. -/
theorem retryFrom_step_error {op : Nat → Except Err α} {e : Err} {attempt r : Nat}
    (h : op attempt = Except.error e) (hr : r ≠ 0) :
    retryFrom op attempt (r + 1)
      = { result := (retryFrom op (attempt + 1) r).result,
          attempts := (retryFrom op (attempt + 1) r).attempts + 1,
          sleeps := (retryFrom op (attempt + 1) r).sleeps + 1 } := by
  simp [retryFrom, h, hr]

/-- When every attempt from `attempt` on fails, the loop runs all `r + 1`
remaining attempts, sleeps between consecutive ones, and reports the last
attempt number with the last error. -/
theorem retryFrom_all_fail {op : Nat → Except Err α} {e : Nat → Err} :
    ∀ (r attempt : Nat), (∀ j, attempt ≤ j → op j = Except.error (e j)) →
    retryFrom op attempt (r + 1)
      = { result := Except.error (attempt + r, e (attempt + r)), attempts := r + 1, sleeps := r } := by
  intro r
  induction r with
  | zero =>
      intro attempt h
      simp [retryFrom, h attempt le_rfl]
  | succ r ih =>
      intro attempt h
      have h0 : op attempt = Except.error (e attempt) := h attempt le_rfl
      have hrest := ih (attempt + 1) (fun j hj => h j (by omega))
      have harith : attempt + 1 + r = attempt + (r + 1) := by omega
      rw [harith] at hrest
      rw [retryFrom_step_error h0 (by omega), hrest]

/-- When the first `k` attempts fail and attempt `attempt + k` succeeds,
within the remaining budget, the loop returns that success after exactly
`k + 1` attempts and `k` sleeps, and makes no further attempt. -/
theorem retryFrom_succeeds_at {op : Nat → Except Err α} {a : α} :
    ∀ (k attempt remaining : Nat), k < remaining →
    (∀ j, j < k → ∃ e, op (attempt + j) = Except.error e) →
    op (attempt + k) = Except.ok a →
    retryFrom op attempt remaining
      = { result := Except.ok a, attempts := k + 1, sleeps := k } := by
  intro k
  induction k with
  | zero =>
      intro attempt remaining hk _hf hs
      obtain ⟨r, rfl⟩ : ∃ r, remaining = r + 1 := ⟨remaining - 1, by omega⟩
      exact retryFrom_ok attempt r (by simpa using hs)
  | succ k ih =>
      intro attempt remaining hk hf hs
      obtain ⟨r, rfl⟩ : ∃ r, remaining = r + 1 := ⟨remaining - 1, by omega⟩
      obtain ⟨e0, he0⟩ := hf 0 (by omega)
      have he0a : op attempt = Except.error e0 := by simpa using he0
      have hr : r ≠ 0 := by omega
      have hrest := ih (attempt + 1) r (by omega)
        (fun j hj => by
          obtain ⟨e, he⟩ := hf (j + 1) (by omega)
          exact ⟨e, by rw [show attempt + 1 + j = attempt + (j + 1) by omega]; exact he⟩)
        (by rw [show attempt + 1 + k = attempt + (k + 1) by omega]; exact hs)
      rw [retryFrom_step_error he0a hr, hrest]

/-- The loop always makes at least one attempt when the budget is positive. -/
theorem retryFrom_attempts_pos {op : Nat → Except Err α} (attempt r : Nat) :
    1 ≤ (retryFrom op attempt (r + 1)).attempts := by
  cases h : op attempt with
  | ok a => simp [retryFrom, h]
  | error e => by_cases hr : r = 0 <;> simp [retryFrom, h, hr]

/-! Helper lemmas about the get attempt under the shared deadline. -/

/-- Before the deadline, a get attempt is the substrate call itself. -/
theorem getAttempt_live {sub : Nat → Except Err String} {elapsed : Nat → Nat}
    {deadline i : Nat} (h : elapsed i < deadline) :
    getAttempt sub elapsed deadline i = sub i := by
  simp [getAttempt, Nat.not_le.mpr h]

/-- Once the shared deadline has expired, a get attempt fails without
consulting the substrate. -/
theorem getAttempt_expired {sub : Nat → Except Err String} {elapsed : Nat → Nat}
    {deadline i : Nat} (h : deadline ≤ elapsed i) :
    getAttempt sub elapsed deadline i = Except.error Err.deadlineExceeded := by
  simp [getAttempt, h]

/-! Helper lemmas about the readiness polls and their join. -/

/-- Soundness of the poll: when it returns after `n` sleeps, the size was 0
at every earlier poll and positive at the poll that released the loop. -/
theorem pollReady_spec {size : Nat → Nat} :
    ∀ (fuel t n : Nat), pollReady size t fuel = some n →
      0 < size (t + n) ∧ ∀ j, j < n → size (t + j) = 0 := by
  intro fuel
  induction fuel with
  | zero => intro t n h; simp [pollReady] at h
  | succ fuel ih =>
      intro t n h
      by_cases h0 : size t = 0
      · simp [pollReady, h0, Option.map_eq_some'] at h
        obtain ⟨m, hm, rfl⟩ := h
        obtain ⟨hpos, hzero⟩ := ih (t + 1) m hm
        refine ⟨by rw [show t + (m + 1) = t + 1 + m by omega]; exact hpos, ?_⟩
        intro j hj
        cases j with
        | zero => simpa using h0
        | succ j => rw [show t + (j + 1) = t + 1 + j by omega]; exact hzero j (by omega)
      · simp [pollReady, h0] at h
        subst h
        exact ⟨by simpa using Nat.pos_of_ne_zero h0, by omega⟩

/-- A table already populated at the first poll releases the loop at once,
with zero sleeps. -/
theorem pollReady_immediate {size : Nat → Nat} (t fuel : Nat)
    (h : 0 < size t) : pollReady size t (fuel + 1) = some 0 := by
  have hne : size t ≠ 0 := by omega
  simp [pollReady, hne]

/-- A table that never populates keeps the loop spinning: no fuel makes the
poll return. -/
theorem pollReady_stuck {size : Nat → Nat} (hz : ∀ t, size t = 0) :
    ∀ (fuel t : Nat), pollReady size t fuel = none := by
  intro fuel
  induction fuel with
  | zero => intro t; simp [pollReady]
  | succ fuel ih => intro t; simp [pollReady, hz t, ih (t + 1)]

/-- When the join returns, every node's poll returned. -/
theorem waitAllReady_mem_ready :
    ∀ (nodes : List (Nat → Nat)) (fuel : Nat) (ns : List Nat),
      waitAllReady nodes fuel = some ns →
      ∀ size, size ∈ nodes → ∃ n, awaitRoutingReady size fuel = some n := by
  intro nodes
  induction nodes with
  | nil => intro fuel ns h size hmem; simp at hmem
  | cons s rest ih =>
      intro fuel ns h size hmem
      cases hs : awaitRoutingReady s fuel with
      | none => simp [waitAllReady, hs] at h
      | some n =>
          cases hr : waitAllReady rest fuel with
          | none => simp [waitAllReady, hs, hr] at h
          | some ms =>
              rcases List.mem_cons.mp hmem with rfl | hmem2
              · exact ⟨n, hs⟩
              · exact ih fuel ms hr size hmem2

/-- When one node's table never populates, the join never returns, whatever
the observation window. -/
theorem waitAllReady_stuck :
    ∀ (nodes : List (Nat → Nat)) (size : Nat → Nat), size ∈ nodes →
      (∀ t, size t = 0) → ∀ fuel, waitAllReady nodes fuel = none := by
  intro nodes
  induction nodes with
  | nil => intro size hmem; simp at hmem
  | cons s rest ih =>
      intro size hmem hz fuel
      rcases List.mem_cons.mp hmem with rfl | hmem2
      · simp [waitAllReady, awaitRoutingReady, pollReady_stuck hz]
      · have hrest := ih size hmem2 hz fuel
        cases hs : awaitRoutingReady s fuel <;> simp [waitAllReady, hs, hrest]

/-- Round-trip law of the spec-modelled replicated store: a get of a key
just put returns exactly the value put. -/
theorem storeGet_storePut (s : Store) (k v : String) :
    storeGet (storePut s k v) k = Except.ok v := by
  simp [storeGet, storePut]

/-! Claim theorems. -/

/-- C1: on the spec-modelled connected, ready overlay the round-trip law
holds — a get of key k after a successful put(k, v) returns exactly v — and
in the concrete two-node scenario node 2 stores "/myapp/testkey" =
"Hello, libp2p DHT!" within 3 attempts and node 1's get under the 10-second
deadline returns exactly "Hello, libp2p DHT!". -/
theorem put_get_roundTrip (s : Store) (k v : String) (elapsed : Nat → Nat)
    (hin : elapsed 1 < getTimeoutMs) :
    storeGet (storePut s k v) k = Except.ok v
    ∧ getPath (fun _ key => storeGet (storePut s k v) key) elapsed k maxRetries
        = { result := Except.ok v, attempts := 1, sleeps := 0 }
    ∧ (scenario s elapsed).1.result = Except.ok ()
    ∧ (scenario s elapsed).1.attempts ≤ 3
    ∧ (scenario s elapsed).2.2.result = Except.ok testValue := by
  have hput : (scenario s elapsed).1
      = { result := Except.ok (), attempts := 1, sleeps := 0 } := by
    show retryFrom (fun _ => Except.ok ()) 1 maxRetries = _
    exact retryFrom_ok 1 2 rfl
  have hget : (scenario s elapsed).2.2
      = { result := Except.ok testValue, attempts := 1, sleeps := 0 } := by
    show retryFrom (fun attempt => getAttempt
        (fun i => storeGet (storePut s testKey testValue) testKey)
        elapsed getTimeoutMs attempt) 1 maxRetries = _
    have h1 : getAttempt (fun i => storeGet (storePut s testKey testValue) testKey)
        elapsed getTimeoutMs 1 = Except.ok testValue := by
      rw [getAttempt_live hin]
      exact storeGet_storePut s testKey testValue
    exact retryFrom_ok 1 2 h1
  refine ⟨storeGet_storePut s k v, ?_, by rw [hput], by rw [hput]; norm_num, by rw [hget]⟩
  show retryFrom (fun attempt => getAttempt
      (fun i => storeGet (storePut s k v) k) elapsed getTimeoutMs attempt) 1 maxRetries = _
  have h1 : getAttempt (fun i => storeGet (storePut s k v) k)
      elapsed getTimeoutMs 1 = Except.ok v := by
    rw [getAttempt_live hin]
    exact storeGet_storePut s k v
  exact retryFrom_ok 1 2 h1

/-- Witness for put_get_roundTrip at the empty store, key "k", value "v",
and a clock that has not advanced. -/
theorem put_get_roundTrip_witness :
    storeGet (storePut ([] : Store) "k" "v") "k" = Except.ok "v"
    ∧ getPath (fun _ key => storeGet (storePut ([] : Store) "k" "v") key)
        (fun _ => 0) "k" maxRetries
        = { result := Except.ok "v", attempts := 1, sleeps := 0 }
    ∧ (scenario [] (fun _ => 0)).1.result = Except.ok ()
    ∧ (scenario [] (fun _ => 0)).1.attempts ≤ 3
    ∧ (scenario [] (fun _ => 0)).2.2.result = Except.ok testValue :=
  put_get_roundTrip [] "k" "v" (fun _ => 0) (by decide)

/-- C2 counterexample: "badkey" does not carry the "/myapp/" namespace, yet
the put path of the source makes a substrate call for it — one observed
call, not zero — and reports the substrate's answer; no local validation
error is produced before the call, because the source contains no key
validation at all. -/
theorem key_validation_cex :
    ("badkey".startsWith "/myapp/") = false
    ∧ putPath (fun _ _ _ => Except.ok ()) "badkey" "v" maxRetries
        = { result := Except.ok (), attempts := 1, sleeps := 0 } :=
  ⟨by decide, rfl⟩

/-- C2 amended: the core performs no key validation of its own; whatever the
key, both the put path and the get path consult the substrate — at least the
first attempt is always made — and when the substrate accepts the first put
attempt the path succeeds, namespace prefix or not.  Rejection of keys
outside the expected namespace is the substrate's behaviour, observed as the
substrate call's answer, not as a pre-call check. -/
theorem no_core_key_validation (key value : String)
    (psub : Nat → String → String → Except Err Unit)
    (gsub : Nat → String → Except Err String)
    (elapsed : Nat → Nat) (m : Nat) (hm : 1 ≤ m) :
    1 ≤ (putPath psub key value m).attempts
    ∧ 1 ≤ (getPath gsub elapsed key m).attempts
    ∧ (psub 1 key value = Except.ok () →
        putPath psub key value m
          = { result := Except.ok (), attempts := 1, sleeps := 0 }) := by
  obtain ⟨r, rfl⟩ : ∃ r, m = r + 1 := ⟨m - 1, by omega⟩
  refine ⟨retryFrom_attempts_pos 1 r, retryFrom_attempts_pos 1 r, fun hp => ?_⟩
  show retryFrom (fun attempt => psub attempt key value) 1 (r + 1) = _
  exact retryFrom_ok 1 r hp

/-- Witness for no_core_key_validation at a key with no namespace and an
accepting substrate. -/
theorem no_core_key_validation_witness :
    1 ≤ (putPath (fun _ _ _ => Except.ok ()) "plainkey" "v" 3).attempts
    ∧ 1 ≤ (getPath (fun _ _ => Except.ok "v") (fun _ => 0) "plainkey" 3).attempts
    ∧ putPath (fun _ _ _ => Except.ok ()) "plainkey" "v" 3
        = { result := Except.ok (), attempts := 1, sleeps := 0 } := by
  have h := no_core_key_validation "plainkey" "v" (fun _ _ _ => Except.ok ())
    (fun _ _ => Except.ok "v") (fun _ => 0) 3 (by omega)
  exact ⟨h.1, h.2.1, h.2.2 rfl⟩

/-- C3: for an operation that fails exactly n - 1 times and then succeeds at
attempt n, the retry runner with maxAttempts ≥ n returns the success, makes
exactly n attempts, sleeps exactly n - 1 inter-attempt delays, and performs
no further attempt or delay after the first success. -/
theorem retryRunner_first_success {α : Type} (op : Nat → Except Err α) (a : α)
    (n m : Nat) (hn : 1 ≤ n) (hm : n ≤ m)
    (hfail : ∀ i, 1 ≤ i → i < n → ∃ e, op i = Except.error e)
    (hsucc : op n = Except.ok a) :
    retryRun op m = { result := Except.ok a, attempts := n, sleeps := n - 1 } := by
  have h := retryFrom_succeeds_at (n - 1) 1 m (by omega)
    (fun j hj => by
      obtain ⟨e, he⟩ := hfail (1 + j) (by omega) (by omega)
      exact ⟨e, he⟩)
    (by rw [show 1 + (n - 1) = n by omega]; exact hsucc)
  rw [retryRun, h, show n - 1 + 1 = n by omega]

/-- Witness for retryRunner_first_success: an operation that fails once and
succeeds at attempt 2, under a budget of 3 attempts. -/
theorem retryRunner_first_success_witness :
    retryRun (fun i => if i < 2 then Except.error (Err.transient "flaky") else Except.ok 7) 3
      = { result := Except.ok 7, attempts := 2, sleeps := 1 } :=
  retryRunner_first_success _ 7 2 3 (by omega) (by omega)
    (fun i h1 h2 => ⟨Err.transient "flaky", by
      have hi : i = 1 := by omega
      subst hi
      rfl⟩)
    rfl

/-- C4: for an operation that always fails, the retry runner with
maxAttempts = m performs exactly m attempts and returns a terminal error
carrying the attempt count m and wrapping the last underlying error — the
Fatalf of hello.go:123 for put (StoreFailed) and hello.go:142 for get
(FetchFailed). -/
theorem retryRunner_exhaustion {α : Type} (op : Nat → Except Err α) (e : Nat → Err)
    (m : Nat) (hm : 1 ≤ m) (hfail : ∀ i, op i = Except.error (e i)) :
    retryRun op m
      = { result := Except.error (m, e m), attempts := m, sleeps := m - 1 } := by
  obtain ⟨r, rfl⟩ : ∃ r, m = r + 1 := ⟨m - 1, by omega⟩
  have h := retryFrom_all_fail r 1 (fun j _ => hfail j)
  rw [show 1 + r = r + 1 by omega] at h
  exact h

/-- Witness for retryRunner_exhaustion: an always-failing operation under a
budget of 3 attempts. -/
theorem retryRunner_exhaustion_witness :
    retryRun (fun _ => (Except.error (Err.transient "down") : Except Err Nat)) 3
      = { result := Except.error (3, Err.transient "down"), attempts := 3, sleeps := 2 } :=
  retryRunner_exhaustion _ (fun _ => Err.transient "down") 3 (by omega) (fun _ => rfl)

/-- C5 counterexample: a substrate that definitively answers NotFound on
every attempt is retried to exhaustion by the get loop of the source — three
attempts, not one — and a nil-error empty answer is returned as a plain
success, not converted to NotFound. -/
theorem notFound_retried_cex :
    (getPath (fun _ _ => Except.error Err.notFound) (fun _ => 0) testKey maxRetries).attempts = 3
    ∧ getPath (fun _ _ => Except.ok "") (fun _ => 0) testKey maxRetries
        = { result := Except.ok "", attempts := 1, sleeps := 0 } :=
  ⟨rfl, rfl⟩

/-- C5 amended: the get loop of the source applies one uniform retry policy
to every error: any failing answer, NotFound included, is retried until the
attempt budget is exhausted, with the terminal error wrapping the last
answer; and a nil-error answer, empty or not, stops the loop as a success —
it is never mapped to a distinct NotFound result. -/
theorem get_retries_all_errors (e : Err) (key : String) (elapsed : Nat → Nat)
    (m : Nat) (hm : 1 ≤ m) (hin : ∀ i, elapsed i < getTimeoutMs) :
    getPath (fun _ _ => Except.error e) elapsed key m
      = { result := Except.error (m, e), attempts := m, sleeps := m - 1 }
    ∧ ∀ v, getPath (fun _ _ => Except.ok v) elapsed key m
        = { result := Except.ok v, attempts := 1, sleeps := 0 } := by
  obtain ⟨r, rfl⟩ : ∃ r, m = r + 1 := ⟨m - 1, by omega⟩
  constructor
  · have h := @retryFrom_all_fail String
      (fun attempt => getAttempt (fun i => Except.error e) elapsed getTimeoutMs attempt)
      (fun _ => e) r 1
      (fun j _ => by simpa using getAttempt_live (hin j))
    rw [show 1 + r = r + 1 by omega] at h
    exact h
  · intro v
    have h1 : getAttempt (fun i => Except.ok v) elapsed getTimeoutMs 1 = Except.ok v :=
      getAttempt_live (hin 1)
    exact retryFrom_ok 1 r h1

/-- Witness for get_retries_all_errors with a NotFound-answering substrate,
an empty-success substrate, and a clock that has not advanced. -/
theorem get_retries_all_errors_witness :
    getPath (fun _ _ => Except.error Err.notFound) (fun _ => 0) "/myapp/other" 3
      = { result := Except.error (3, Err.notFound), attempts := 3, sleeps := 2 }
    ∧ getPath (fun _ _ => Except.ok "") (fun _ => 0) "/myapp/other" 3
        = { result := Except.ok "", attempts := 1, sleeps := 0 } := by
  have h := get_retries_all_errors Err.notFound "/myapp/other" (fun _ => 0) 3
    (by omega) (fun i => by norm_num [getTimeoutMs])
  exact ⟨h.1, h.2 ""⟩

/-- C6: awaitRoutingReady returns only after the routing-table size
transitions from 0 to positive — at the releasing poll the size is positive,
and every earlier poll observed 0 — and when the size is already positive at
the first poll it returns immediately, with zero polling sleeps. -/
theorem awaitRoutingReady_ready (size : Nat → Nat) (fuel : Nat) :
    (0 < size 0 → 1 ≤ fuel → awaitRoutingReady size fuel = some 0)
    ∧ ∀ n, awaitRoutingReady size fuel = some n →
        0 < size n ∧ ∀ t, t < n → size t = 0 := by
  constructor
  · intro h hf
    obtain ⟨f, rfl⟩ : ∃ f, fuel = f + 1 := ⟨fuel - 1, by omega⟩
    exact pollReady_immediate 0 f h
  · intro n h
    have hs := pollReady_spec fuel 0 n h
    simpa using hs

/-- Witness for awaitRoutingReady_ready: an already-populated table returns
at once, and a table that populates at the third poll is preceded only by
empty observations. -/
theorem awaitRoutingReady_ready_witness :
    awaitRoutingReady (fun _ => 1) 5 = some 0
    ∧ 0 < (if 2 < 2 then 0 else 5)
    ∧ (if 0 < 2 then (0 : Nat) else 5) = 0 := by
  have h2 := (awaitRoutingReady_ready (fun t => if t < 2 then 0 else 5) 10).2 2 (by decide)
  exact ⟨(awaitRoutingReady_ready (fun _ => 1) 5).1 (by decide) (by omega),
    h2.1, h2.2 0 (by omega)⟩

/-- C7: the WaitGroup join over the per-node readiness polls returns only
after every one of the N nodes has reported a non-empty routing table, and
when some node never becomes ready the join never returns, whatever the
observation window. -/
theorem waitAllReady_join (nodes : List (Nat → Nat)) (fuel : Nat) :
    (∀ ns, waitAllReady nodes fuel = some ns →
      ∀ size, size ∈ nodes → ∃ n, awaitRoutingReady size fuel = some n ∧ 0 < size n)
    ∧ ∀ size, size ∈ nodes → (∀ t, size t = 0) →
        ∀ f, waitAllReady nodes f = none := by
  constructor
  · intro ns h size hmem
    obtain ⟨n, hn⟩ := waitAllReady_mem_ready nodes fuel ns h size hmem
    refine ⟨n, hn, ?_⟩
    have hs := (pollReady_spec fuel 0 n hn).1
    simpa using hs
  · exact fun size hmem hz f => waitAllReady_stuck nodes size hmem hz f

/-- Witness for waitAllReady_join: a one-node overlay whose table is already
populated joins at once, and a pair whose second node never populates never
joins. -/
theorem waitAllReady_join_witness :
    waitAllReady [fun _ => 1, fun _ => 0] 7 = none ∧ 0 < (1 : Nat) := by
  constructor
  · exact (waitAllReady_join [fun _ => 1, fun _ => 0] 7).2 (fun _ => 0) (by simp)
      (fun _ => rfl) 7
  · obtain ⟨n, hn, hpos⟩ :=
      (waitAllReady_join [fun _ => 1] 5).1 [0] (by decide) (fun _ => 1) (by simp)
    exact hpos

/-- C8: the orchestration dials host 1's first advertised address suffixed
with its peer ID, and after connect it asserts connectedness with a single
query — exactly one connectedness read whatever the outcome, so no retry —
succeeding exactly when the state is connected, and failing fast with the
verification error otherwise. -/
theorem connect_verification_fail_fast (state : Nat → Connectedness)
    (addrs : List String) (pid a : String) (h : addrs.head? = some a) :
    dialAddr addrs pid = some (a ++ "/p2p/" ++ pid)
    ∧ (verifyConnection state).2 = 1
    ∧ ((verifyConnection state).1 = Except.ok () ↔ state 0 = Connectedness.connected)
    ∧ (state 0 ≠ Connectedness.connected →
        (verifyConnection state).1 = Except.error Err.verificationFailed) := by
  refine ⟨by simp [dialAddr, h], ?_, ?_, ?_⟩
  · by_cases hc : state 0 = Connectedness.connected <;> simp [verifyConnection, hc]
  · by_cases hc : state 0 = Connectedness.connected <;> simp [verifyConnection, hc]
  · intro hc
    simp [verifyConnection, hc]

/-- Witness for connect_verification_fail_fast on a connected pair with one
advertised address. -/
theorem connect_verification_fail_fast_witness :
    dialAddr ["/ip4/127.0.0.1/tcp/4001"] "QmPeer"
        = some ("/ip4/127.0.0.1/tcp/4001" ++ "/p2p/" ++ "QmPeer")
    ∧ (verifyConnection (fun _ => Connectedness.connected)).2 = 1
    ∧ (verifyConnection (fun _ => Connectedness.connected)).1 = Except.ok () := by
  have h := connect_verification_fail_fast (fun _ => Connectedness.connected)
    ["/ip4/127.0.0.1/tcp/4001"] "QmPeer" "/ip4/127.0.0.1/tcp/4001" rfl
  exact ⟨h.1, h.2.1, h.2.2.1.mpr rfl⟩

/-- C9 (modelled from the spec, sections 3 and 4.1): close is total —
closing never errors, also on an already closed node — and idempotent: a
second close leaves the node exactly as the first close left it, with the
node marked released; and every operation attempted on a closed node returns
ClosedError. -/
theorem close_idempotent_and_closedError (n : DHTNode) (α : Type) (op : Except Err α) :
    closeNode (closeNode n) = closeNode n
    ∧ (closeNode n).closed = true
    ∧ runOnNode (closeNode n) op = Except.error Err.closed := by
  refine ⟨rfl, rfl, ?_⟩
  simp [runOnNode, closeNode]

/-- C10: the 10-second deadline of the retrieve loop is computed once,
before the first attempt, and shared by the whole loop: once the shared
deadline has expired every remaining get attempt fails with the deadline
error, and a loop whose first attempt already starts past the deadline
exhausts all its attempts on that same error; the put loop, by contrast,
runs under no deadline at all — its outcome is the substrate's answer,
however much time has elapsed. -/
theorem get_deadline_shared_put_unbounded (sub : Nat → String → Except Err String)
    (key : String) (elapsed : Nat → Nat) (m i : Nat) (hm : 1 ≤ m)
    (mono : ∀ j k, j ≤ k → elapsed j ≤ elapsed k)
    (hexp : getTimeoutMs ≤ elapsed i) :
    (∀ j, i ≤ j → getAttempt (fun t => sub t key) elapsed getTimeoutMs j
        = Except.error Err.deadlineExceeded)
    ∧ (getTimeoutMs ≤ elapsed 1 →
        getPath sub elapsed key m
          = { result := Except.error (m, Err.deadlineExceeded),
              attempts := m, sleeps := m - 1 })
    ∧ ∀ (psub : Nat → String → String → Except Err Unit) (v : String),
        psub 1 key v = Except.ok () →
        putPath psub key v m = { result := Except.ok (), attempts := 1, sleeps := 0 } := by
  refine ⟨?_, ?_, ?_⟩
  · intro j hj
    exact getAttempt_expired (le_trans hexp (mono i j hj))
  · intro h1
    obtain ⟨r, rfl⟩ : ∃ r, m = r + 1 := ⟨m - 1, by omega⟩
    have h := @retryFrom_all_fail String
      (fun attempt => getAttempt (fun t => sub t key) elapsed getTimeoutMs attempt)
      (fun _ => Err.deadlineExceeded) r 1
      (fun j hj => getAttempt_expired (le_trans h1 (mono 1 j hj)))
    rw [show 1 + r = r + 1 by omega] at h
    exact h
  · intro psub v hp
    obtain ⟨r, rfl⟩ : ∃ r, m = r + 1 := ⟨m - 1, by omega⟩
    show retryFrom (fun attempt => psub attempt key v) 1 (r + 1) = _
    exact retryFrom_ok 1 r hp

/-- Witness for get_deadline_shared_put_unbounded with a clock frozen at the
deadline: every get attempt fails, the loop exhausts its 3 attempts on the
deadline error, while a put through an accepting substrate still succeeds at
its first attempt. -/
theorem get_deadline_shared_put_unbounded_witness :
    getAttempt (fun _ => Except.ok "x") (fun _ => 10000) getTimeoutMs 1
        = Except.error Err.deadlineExceeded
    ∧ getPath (fun _ _ => Except.ok "x") (fun _ => 10000) testKey 3
        = { result := Except.error (3, Err.deadlineExceeded), attempts := 3, sleeps := 2 }
    ∧ putPath (fun _ _ _ => Except.ok ()) testKey "v" 3
        = { result := Except.ok (), attempts := 1, sleeps := 0 } := by
  have h := get_deadline_shared_put_unbounded (fun _ _ => Except.ok "x") testKey
    (fun _ => 10000) 3 1 (by omega) (fun j k hjk => le_refl 10000) (by decide)
  exact ⟨h.1 1 le_rfl, h.2.1 (by decide), h.2.2 (fun _ _ _ => Except.ok ()) "v" rfl⟩

end HelloDHT
